import Mathlib

/-!
Shallow embedding of the goevent package: a publish/subscribe dispatcher
wrapping a topic bus, with per-dispatch completion handles, sync/async
listeners, and two-tier error collection.

Go heap objects become explicit state: `SysState` holds the dispatcher
fields (`subs`, `wg`, `errors`, `asyncListeners`) together with a store of
dispatch handles (indexed by allocation order) and a list of pending
asynchronous computations (goroutines spawned by `Publish` for async
subscribers, and the watcher goroutine spawned by `Dispatch`).  A scheduler
step picks a pending computation and runs it; `WaitGroup.Wait` is modelled
by an enabledness condition (the counter is zero).
-/

namespace GoEvent

/-- Pointwise map update, used for the handle store and the async-count map. -/
def updFn {α : Type} [DecidableEq α] {β : Type} (f : α → β) (a : α) (b : β) : α → β :=
  fun x => if x = a then b else f x

/-- EventError (entity.go lines 9-13): event name, listener type identifier
(the string produced by the %T format), and the underlying failure message. -/
structure EventError where
  eventName : String
  listenerType : String
  err : String
deriving DecidableEq, Repr

/-- Event interface (part_002 lines 4-7): a routing name and a payload map;
the payload is introspection-only and never routes, so string values suffice. -/
structure Event where
  name : String
  payload : List (String × String)
deriving DecidableEq, Repr

/-- Listener interface (part_002 lines 11-26).  `onEvent` returns `none` on
success and `some msg` for a failure with message `msg` (Go `error`).
`options` is `none` when the listener does not implement
ListenerWithOptions, and `some b` when it does with `Options().Async = b`. -/
structure Listener where
  eventName : String
  listenerType : String
  onEvent : Event → Option String
  options : Option Bool

/-- DispatchHandle state (entity.go lines 21-26): WaitGroup counter, private
error log, and whether the done channel has been closed. -/
structure HandleState where
  wg : Int
  errors : List EventError
  doneClosed : Bool
deriving DecidableEq, Repr

/-- A listener subscription held by the topic bus: topic, wrapped listener,
and the execution mode resolved at registration. -/
structure Subscription where
  eventName : String
  listener : Listener
  isAsync : Bool

/-- A positional argument passed through `bus.Publish`: a dispatch handle
(identified by its allocation index), an event, or any other value. -/
inductive Arg where
  | handle (hid : Nat)
  | ev (e : Event)
  | other

/-- A pending asynchronous computation: an async adapter invocation spawned
by `Publish`, or the watcher goroutine spawned by `Dispatch` (part_001 lines
143-146) that waits for the handle WaitGroup and then marks it done. -/
inductive Task where
  | handlerCall (sub : Subscription) (args : List Arg)
  | watcher (hid : Nat)

/-- Whole-system state: the GoEvent fields (part_001 lines 26-33) plus the
handle store and pending asynchronous computations. -/
structure SysState where
  subs : List Subscription
  gwg : Int
  gerrors : List EventError
  asyncListeners : String → Nat
  handles : Nat → HandleState
  nextHandle : Nat
  tasks : List Task

/-- New (part_001 lines 36-42): empty bus, empty error list, empty
async-listener map. -/
def New : SysState :=
  { subs := []
    gwg := 0
    gerrors := []
    asyncListeners := fun _ => 0
    handles := fun _ => { wg := 0, errors := [], doneClosed := false }
    nextHandle := 0
    tasks := [] }

/-- DispatchHandle.recordError (entity.go lines 50-54): append to the handle
private error log. -/
def recordHandleError (s : SysState) (hid : Nat) (e : EventError) : SysState :=
  { s with handles := updFn s.handles hid ({ s.handles hid with errors := (s.handles hid).errors ++ [e] }) }

/-- GoEvent.recordError (part_001 lines 176-180): append to the global error
log. -/
def recordGlobalError (s : SysState) (e : EventError) : SysState :=
  { s with gerrors := s.gerrors ++ [e] }

/-- DispatchHandle.markDone (entity.go lines 57-59): close the done channel. -/
def markDone (s : SysState) (hid : Nat) : SysState :=
  { s with handles := updFn s.handles hid ({ s.handles hid with doneClosed := true }) }

/-- The wrapper handler built in registerSingleListener (part_001 lines
64-89): if fewer than two args, or the first is not a handle or the second
is not an event, return; otherwise call OnEvent and on failure record an
EventError to both the handle and the global log (handle first). -/
def runHandler (l : Listener) (s : SysState) (args : List Arg) : SysState :=
  match args with
  | Arg.handle hid :: Arg.ev e :: _ =>
      match l.onEvent e with
      | some msg =>
          let err : EventError :=
            { eventName := l.eventName, listenerType := l.listenerType, err := msg }
          recordGlobalError (recordHandleError s hid err) err
      | none => s
  | _ => s

/-- Decrement the WaitGroup counter of handle `hid` (handle.wg.Done). -/
def decHandleWg (s : SysState) (hid : Nat) : SysState :=
  { s with handles := updFn s.handles hid ({ s.handles hid with wg := (s.handles hid).wg - 1 }) }

/-- The async wrapper built in registerSingleListener (part_001 lines
99-108): run the handler, then the deferred `ge.wg.Done()` runs, then the
deferred `handle.wg.Done()` runs when the first argument is a handle
(defers run in reverse registration order). -/
def runAsyncHandler (l : Listener) (s : SysState) (args : List Arg) : SysState :=
  let s1 := runHandler l s args
  let s2 := { s1 with gwg := s1.gwg - 1 }
  match args with
  | Arg.handle hid :: _ => decHandleWg s2 hid
  | _ => s2

/-- Mode resolution (part_001 lines 55-58): async only when the listener
implements ListenerWithOptions and Options().Async is true. -/
def resolveAsync (l : Listener) : Bool :=
  match l.options with
  | some b => b
  | none => false

/-- registerSingleListener (part_001 lines 53-114): resolve the mode; if
async, increment the async-listener count for the event name and subscribe
the async wrapper; if sync, subscribe the plain handler.  The bus keeps
subscriptions in registration order. -/
def registerSingleListener (s : SysState) (l : Listener) : SysState :=
  if resolveAsync l then
    { s with
      asyncListeners := updFn s.asyncListeners l.eventName (s.asyncListeners l.eventName + 1)
      subs := s.subs ++ [{ eventName := l.eventName, listener := l, isAsync := true }] }
  else
    { s with subs := s.subs ++ [{ eventName := l.eventName, listener := l, isAsync := false }] }

/-- RegisterListener (part_001 lines 47-51): register each listener in turn. -/
def RegisterListener (s : SysState) (ls : List Listener) : SysState :=
  ls.foldl registerSingleListener s

/-- Bus publication over a list of matching subscriptions: synchronous
handlers run inline in subscription order; each asynchronous handler is
spawned as a pending computation. -/
def publishList (args : List Arg) (s : SysState) : List Subscription → SysState
  | [] => s
  | sub :: rest =>
      let s' := if sub.isAsync then
          { s with tasks := s.tasks ++ [Task.handlerCall sub args] }
        else runHandler sub.listener s args
      publishList args s' rest

/-- bus.Publish(topic, args...): invoke every handler subscribed to the
topic, synchronous ones inline, asynchronous ones on fresh goroutines. -/
def publish (s : SysState) (topic : String) (args : List Arg) : SysState :=
  publishList args s (s.subs.filter (fun sub => sub.eventName == topic))

/-- The first phase of Dispatch (part_001 lines 119-137): read the async
count for the event name, allocate a fresh handle, and when the count is
nonzero add it to both the global and the handle WaitGroup counters.
Returns the new state and the handle index. -/
def dispatchPre (s : SysState) (e : Event) : SysState × Nat :=
  let hid := s.nextHandle
  let asyncCount := s.asyncListeners e.name
  let fresh : HandleState := { wg := 0, errors := [], doneClosed := false }
  let s1 := { s with handles := updFn s.handles hid fresh, nextHandle := hid + 1 }
  let s2 :=
    if asyncCount > 0 then
      { s1 with
        gwg := s1.gwg + asyncCount
        handles := updFn s1.handles hid { fresh with wg := (asyncCount : Int) } }
    else s1
  (s2, hid)

/-- Dispatch (part_001 lines 119-149): the pre phase (handle allocation and
counter increments), then the publish with `(handle, event)` as arguments,
then spawning the watcher goroutine; returns the handle index. -/
def Dispatch (s : SysState) (e : Event) : SysState × Nat :=
  let p := dispatchPre s e
  let s3 := publish p.1 e.name [Arg.handle p.2, Arg.ev e]
  ({ s3 with tasks := s3.tasks ++ [Task.watcher p.2] }, p.2)

/-- A pending computation is runnable: async adapter invocations always are;
the watcher blocks in `handle.wg.Wait()` until the handle counter is zero. -/
def taskEnabled (s : SysState) : Task → Bool
  | Task.handlerCall _ _ => true
  | Task.watcher hid => (s.handles hid).wg == 0

/-- One scheduler step: run the pending computation at index `i` when it
exists and is enabled, removing it from the pending list; otherwise no
change. -/
def runTaskAt (s : SysState) (i : Nat) : SysState :=
  match s.tasks[i]? with
  | none => s
  | some t =>
      if taskEnabled s t then
        let s' := { s with tasks := s.tasks.eraseIdx i }
        match t with
        | Task.handlerCall sub args => runAsyncHandler sub.listener s' args
        | Task.watcher hid => markDone s' hid
      else s

/-- GoEvent.ClearErrors (part_001 lines 169-173): replace the global error
log with an empty one. -/
def ClearErrors (s : SysState) : SysState :=
  { s with gerrors := [] }

/-- The copy loop of GetErrors: allocate a list of the same length and copy
the elements across in order. -/
def copySlice (l : List EventError) : List EventError :=
  List.ofFn l.get

/-- GoEvent.GetErrors (part_001 lines 158-166): an order-preserving copy of
the global error log. -/
def GetErrors (s : SysState) : List EventError :=
  copySlice s.gerrors

/-- DispatchHandle.GetErrors (entity.go lines 40-47): an order-preserving
copy of the handle private error log. -/
def handleGetErrors (s : SysState) (hid : Nat) : List EventError :=
  copySlice (s.handles hid).errors

/-- DispatchHandle.Wait (entity.go lines 29-31) blocks in
`handle.wg.Wait()`; the call returns (without blocking) exactly when the
handle counter is zero. -/
def handleWaitEnabled (s : SysState) (hid : Nat) : Prop :=
  (s.handles hid).wg = 0

/-- GoEvent.Wait (part_001 lines 152-154) blocks in `ge.wg.Wait()`; the
call returns exactly when the global counter is zero. -/
def WaitEnabled (s : SysState) : Prop :=
  s.gwg = 0

/-- DispatchHandle.Done (entity.go lines 35-37): the completion signal has
fired once the done channel is closed. -/
def doneFired (s : SysState) (hid : Nat) : Prop :=
  (s.handles hid).doneClosed = true

/-- The externally triggerable transitions of the system: a registration, a
dispatch, one scheduler step, or a ClearErrors call (GetErrors and the Wait
calls read state without changing it). -/
inductive Act where
  | register (l : Listener)
  | dispatchEv (e : Event)
  | runTask (i : Nat)
  | clear

/-- One transition. -/
def stepA (s : SysState) : Act → SysState
  | Act.register l => registerSingleListener s l
  | Act.dispatchEv e => (Dispatch s e).1
  | Act.runTask i => runTaskAt s i
  | Act.clear => ClearErrors s

/-- Run a list of transitions from a state. -/
def runActs (s : SysState) (acts : List Act) : SysState :=
  acts.foldl stepA s

/-- A state is reachable when some sequence of transitions produces it from
a fresh GoEvent instance. -/
def Reachable (s : SysState) : Prop :=
  ∃ acts : List Act, s = runActs New acts

/-- Valid argument lists for the wrapper handler: at least two arguments,
the first a dispatch handle and the second an event (part_001 lines 65-75). -/
def goodArgs : List Arg → Bool
  | Arg.handle _ :: Arg.ev _ :: _ => true
  | _ => false

/-- The handle targeted by an argument list, when the first argument is a
handle. -/
def argHandle : List Arg → Option Nat
  | Arg.handle h :: _ => some h
  | _ => none

theorem updFn_self {α β : Type} [DecidableEq α] (f : α → β) (a : α) (b : β) :
    updFn f a b a = b := by
  simp [updFn]

theorem updFn_ne {α β : Type} [DecidableEq α] (f : α → β) (a : α) (b : β) {x : α}
    (h : x ≠ a) : updFn f a b x = f x := by
  simp [updFn, h]

theorem runHandler_eq_some {l : Listener} {e : Event} {msg : String} (s : SysState)
    (hid : Nat) (rest : List Arg) (h : l.onEvent e = some msg) :
    runHandler l s (Arg.handle hid :: Arg.ev e :: rest) =
      recordGlobalError
        (recordHandleError s hid
          { eventName := l.eventName, listenerType := l.listenerType, err := msg })
        { eventName := l.eventName, listenerType := l.listenerType, err := msg } := by
  simp [runHandler, h]

theorem runHandler_eq_none {l : Listener} {e : Event} (s : SysState)
    (hid : Nat) (rest : List Arg) (h : l.onEvent e = none) :
    runHandler l s (Arg.handle hid :: Arg.ev e :: rest) = s := by
  simp [runHandler, h]

theorem runHandler_badArgs (l : Listener) (s : SysState) {args : List Arg}
    (h : goodArgs args = false) : runHandler l s args = s := by
  unfold runHandler
  split
  · rename_i hid e rest
    simp [goodArgs] at h
  · rfl

theorem runHandler_subs (l : Listener) (s : SysState) (args : List Arg) :
    (runHandler l s args).subs = s.subs := by
  unfold runHandler
  split
  · split <;> simp [recordGlobalError, recordHandleError]
  · rfl

theorem runHandler_asyncListeners (l : Listener) (s : SysState) (args : List Arg) :
    (runHandler l s args).asyncListeners = s.asyncListeners := by
  unfold runHandler
  split
  · split <;> simp [recordGlobalError, recordHandleError]
  · rfl

theorem runHandler_tasks (l : Listener) (s : SysState) (args : List Arg) :
    (runHandler l s args).tasks = s.tasks := by
  unfold runHandler
  split
  · split <;> simp [recordGlobalError, recordHandleError]
  · rfl

theorem runHandler_nextHandle (l : Listener) (s : SysState) (args : List Arg) :
    (runHandler l s args).nextHandle = s.nextHandle := by
  unfold runHandler
  split
  · split <;> simp [recordGlobalError, recordHandleError]
  · rfl

theorem runHandler_gwg (l : Listener) (s : SysState) (args : List Arg) :
    (runHandler l s args).gwg = s.gwg := by
  unfold runHandler
  split
  · split <;> simp [recordGlobalError, recordHandleError]
  · rfl

theorem runHandler_wg (l : Listener) (s : SysState) (args : List Arg) (hid : Nat) :
    ((runHandler l s args).handles hid).wg = (s.handles hid).wg := by
  unfold runHandler
  split
  · rename_i h0 e rest
    split
    · simp only [recordGlobalError, recordHandleError, updFn]
      split
      · rename_i heq; rw [heq]
      · rfl
    · rfl
  · rfl

theorem runHandler_done (l : Listener) (s : SysState) (args : List Arg) (hid : Nat) :
    ((runHandler l s args).handles hid).doneClosed = (s.handles hid).doneClosed := by
  unfold runHandler
  split
  · rename_i h0 e rest
    split
    · simp only [recordGlobalError, recordHandleError, updFn]
      split
      · rename_i heq; rw [heq]
      · rfl
    · rfl
  · rfl

theorem runHandler_handles_other (l : Listener) (s : SysState) (args : List Arg)
    {hid : Nat} (h : argHandle args ≠ some hid) :
    (runHandler l s args).handles hid = s.handles hid := by
  unfold runHandler
  split
  · rename_i h0 e rest
    have hne : hid ≠ h0 := by
      intro hcontra
      exact h (by simp [argHandle, hcontra])
    split
    · simp [recordGlobalError, recordHandleError, updFn_ne _ _ _ hne]
    · rfl
  · rfl

theorem runHandler_both_append (l : Listener) (s : SysState) (args : List Arg)
    {hid : Nat} (h : argHandle args = some hid) :
    ∃ t : List EventError,
      ((runHandler l s args).handles hid).errors = (s.handles hid).errors ++ t ∧
      (runHandler l s args).gerrors = s.gerrors ++ t := by
  unfold runHandler
  split
  · rename_i h0 e rest
    have hh : h0 = hid := by simpa [argHandle] using h
    subst hh
    split
    · rename_i msg hmsg
      refine ⟨[{ eventName := l.eventName, listenerType := l.listenerType, err := msg }], ?_, ?_⟩
      · simp [recordGlobalError, recordHandleError, updFn_self]
      · simp [recordGlobalError, recordHandleError]
    · exact ⟨[], by simp, by simp⟩
  · exact ⟨[], by simp, by simp⟩

theorem runHandler_handle_errors (l : Listener) (s : SysState) (args : List Arg)
    (hid : Nat) :
    ∃ t : List EventError,
      ((runHandler l s args).handles hid).errors = (s.handles hid).errors ++ t := by
  by_cases h : argHandle args = some hid
  · obtain ⟨t, ht, _⟩ := runHandler_both_append l s args h
    exact ⟨t, ht⟩
  · exact ⟨[], by simp [runHandler_handles_other l s args h]⟩

theorem runHandler_gerrors_append (l : Listener) (s : SysState) (args : List Arg) :
    ∃ t : List EventError, (runHandler l s args).gerrors = s.gerrors ++ t := by
  unfold runHandler
  split
  · rename_i h0 e rest
    split
    · rename_i msg hmsg
      exact ⟨[{ eventName := l.eventName, listenerType := l.listenerType, err := msg }],
        by simp [recordGlobalError, recordHandleError]⟩
    · exact ⟨[], by simp⟩
  · exact ⟨[], by simp⟩

theorem decHandleWg_handles_other (s : SysState) (hid : Nat) {hid2 : Nat}
    (h : hid2 ≠ hid) : (decHandleWg s hid).handles hid2 = s.handles hid2 := by
  simp [decHandleWg, updFn_ne _ _ _ h]

theorem runAsyncHandler_gwg (l : Listener) (s : SysState) (args : List Arg) :
    (runAsyncHandler l s args).gwg = s.gwg - 1 := by
  unfold runAsyncHandler
  split
  · simp [decHandleWg, runHandler_gwg]
  · simp [runHandler_gwg]

theorem runAsyncHandler_subs (l : Listener) (s : SysState) (args : List Arg) :
    (runAsyncHandler l s args).subs = s.subs := by
  unfold runAsyncHandler
  split
  · simp [decHandleWg, runHandler_subs]
  · simp [runHandler_subs]

theorem runAsyncHandler_asyncListeners (l : Listener) (s : SysState) (args : List Arg) :
    (runAsyncHandler l s args).asyncListeners = s.asyncListeners := by
  unfold runAsyncHandler
  split
  · simp [decHandleWg, runHandler_asyncListeners]
  · simp [runHandler_asyncListeners]

theorem runAsyncHandler_tasks (l : Listener) (s : SysState) (args : List Arg) :
    (runAsyncHandler l s args).tasks = s.tasks := by
  unfold runAsyncHandler
  split
  · simp [decHandleWg, runHandler_tasks]
  · simp [runHandler_tasks]

theorem runAsyncHandler_nextHandle (l : Listener) (s : SysState) (args : List Arg) :
    (runAsyncHandler l s args).nextHandle = s.nextHandle := by
  unfold runAsyncHandler
  split
  · simp [decHandleWg, runHandler_nextHandle]
  · simp [runHandler_nextHandle]

theorem runAsyncHandler_gerrors (l : Listener) (s : SysState) (args : List Arg) :
    (runAsyncHandler l s args).gerrors = (runHandler l s args).gerrors := by
  unfold runAsyncHandler
  split
  · simp [decHandleWg]
  · simp

theorem runAsyncHandler_done (l : Listener) (s : SysState) (args : List Arg)
    (hid : Nat) :
    ((runAsyncHandler l s args).handles hid).doneClosed = (s.handles hid).doneClosed := by
  unfold runAsyncHandler
  split
  · rename_i h0 rest
    by_cases hh : hid = h0
    · subst hh
      simp [decHandleWg, updFn, runHandler_done]
    · simp [decHandleWg_handles_other _ _ hh, runHandler_done]
  · simp [runHandler_done]

theorem runAsyncHandler_errors (l : Listener) (s : SysState) (args : List Arg)
    (hid : Nat) :
    ((runAsyncHandler l s args).handles hid).errors =
      ((runHandler l s args).handles hid).errors := by
  unfold runAsyncHandler
  split
  · rename_i h0 rest
    by_cases hh : hid = h0
    · subst hh
      simp [decHandleWg, updFn]
    · simp [decHandleWg_handles_other _ _ hh]
  · simp

theorem runAsyncHandler_wg_head (l : Listener) (s : SysState) (hid : Nat)
    (rest : List Arg) :
    ((runAsyncHandler l s (Arg.handle hid :: rest)).handles hid).wg =
      (s.handles hid).wg - 1 := by
  unfold runAsyncHandler
  simp [decHandleWg, updFn_self, runHandler_wg]

theorem runAsyncHandler_handles_other (l : Listener) (s : SysState) (args : List Arg)
    {hid : Nat} (h : argHandle args ≠ some hid) :
    (runAsyncHandler l s args).handles hid = s.handles hid := by
  unfold runAsyncHandler
  split
  · rename_i h0 rest
    have hne : hid ≠ h0 := by
      intro hcontra
      exact h (by simp [argHandle, hcontra])
    rw [decHandleWg_handles_other _ _ hne]
    exact runHandler_handles_other l s _ (by simpa [argHandle] using h)
  · rename_i hshape
    exact runHandler_handles_other l s _ (by
      intro hcontra
      cases args with
      | nil => simp [argHandle] at hcontra
      | cons a rest =>
        cases a with
        | handle h0 => exact hshape h0 rest rfl
        | ev e => simp [argHandle] at hcontra
        | other => simp [argHandle] at hcontra)

theorem publishList_subs (args : List Arg) (s : SysState) (subs : List Subscription) :
    (publishList args s subs).subs = s.subs := by
  induction subs generalizing s with
  | nil => rfl
  | cons sub rest ih =>
    unfold publishList
    split <;> rw [ih] <;> simp [runHandler_subs]

theorem publishList_asyncListeners (args : List Arg) (s : SysState)
    (subs : List Subscription) :
    (publishList args s subs).asyncListeners = s.asyncListeners := by
  induction subs generalizing s with
  | nil => rfl
  | cons sub rest ih =>
    unfold publishList
    split <;> rw [ih] <;> simp [runHandler_asyncListeners]

theorem publishList_nextHandle (args : List Arg) (s : SysState)
    (subs : List Subscription) :
    (publishList args s subs).nextHandle = s.nextHandle := by
  induction subs generalizing s with
  | nil => rfl
  | cons sub rest ih =>
    unfold publishList
    split <;> rw [ih] <;> simp [runHandler_nextHandle]

theorem publishList_gwg (args : List Arg) (s : SysState) (subs : List Subscription) :
    (publishList args s subs).gwg = s.gwg := by
  induction subs generalizing s with
  | nil => rfl
  | cons sub rest ih =>
    unfold publishList
    split <;> rw [ih] <;> simp [runHandler_gwg]

theorem publishList_wg (args : List Arg) (s : SysState) (subs : List Subscription)
    (hid : Nat) :
    ((publishList args s subs).handles hid).wg = (s.handles hid).wg := by
  induction subs generalizing s with
  | nil => rfl
  | cons sub rest ih =>
    unfold publishList
    split <;> rw [ih] <;> simp [runHandler_wg]

theorem publishList_done (args : List Arg) (s : SysState) (subs : List Subscription)
    (hid : Nat) :
    ((publishList args s subs).handles hid).doneClosed =
      (s.handles hid).doneClosed := by
  induction subs generalizing s with
  | nil => rfl
  | cons sub rest ih =>
    unfold publishList
    split <;> rw [ih] <;> simp [runHandler_done]

theorem publishList_tasks (args : List Arg) (s : SysState) (subs : List Subscription) :
    (publishList args s subs).tasks =
      s.tasks ++ (subs.filter (fun sub => sub.isAsync)).map
        (fun sub => Task.handlerCall sub args) := by
  induction subs generalizing s with
  | nil => simp [publishList]
  | cons sub rest ih =>
    unfold publishList
    split
    · rename_i hasync
      rw [ih]
      simp [List.filter_cons, hasync]
    · rename_i hsync
      rw [ih]
      simp only [Bool.not_eq_true] at hsync
      simp [runHandler_tasks, List.filter_cons, hsync]

theorem publishList_handles_other (args : List Arg) (s : SysState)
    (subs : List Subscription) {hid : Nat} (h : argHandle args ≠ some hid) :
    (publishList args s subs).handles hid = s.handles hid := by
  induction subs generalizing s with
  | nil => rfl
  | cons sub rest ih =>
    unfold publishList
    split
    · rw [ih]
    · rw [ih, runHandler_handles_other _ _ _ h]

theorem publishList_gerrors_append (args : List Arg) (s : SysState)
    (subs : List Subscription) :
    ∃ t : List EventError, (publishList args s subs).gerrors = s.gerrors ++ t := by
  induction subs generalizing s with
  | nil => exact ⟨[], by simp [publishList]⟩
  | cons sub rest ih =>
    unfold publishList
    split
    · obtain ⟨t, ht⟩ := ih _
      exact ⟨t, by simpa using ht⟩
    · obtain ⟨t1, ht1⟩ := runHandler_gerrors_append sub.listener s args
      obtain ⟨t2, ht2⟩ := ih (runHandler sub.listener s args)
      exact ⟨t1 ++ t2, by rw [ht2, ht1, List.append_assoc]⟩


theorem dispatchPre_snd (s : SysState) (e : Event) :
    (dispatchPre s e).2 = s.nextHandle := by
  rfl

theorem dispatchPre_subs (s : SysState) (e : Event) :
    (dispatchPre s e).1.subs = s.subs := by
  unfold dispatchPre
  dsimp only
  split <;> rfl

theorem dispatchPre_asyncListeners (s : SysState) (e : Event) :
    (dispatchPre s e).1.asyncListeners = s.asyncListeners := by
  unfold dispatchPre
  dsimp only
  split <;> rfl

theorem dispatchPre_gerrors (s : SysState) (e : Event) :
    (dispatchPre s e).1.gerrors = s.gerrors := by
  unfold dispatchPre
  dsimp only
  split <;> rfl

theorem dispatchPre_tasks (s : SysState) (e : Event) :
    (dispatchPre s e).1.tasks = s.tasks := by
  unfold dispatchPre
  dsimp only
  split <;> rfl

theorem dispatchPre_nextHandle (s : SysState) (e : Event) :
    (dispatchPre s e).1.nextHandle = s.nextHandle + 1 := by
  unfold dispatchPre
  dsimp only
  split <;> rfl

theorem dispatchPre_gwg (s : SysState) (e : Event) :
    (dispatchPre s e).1.gwg = s.gwg + (s.asyncListeners e.name : Int) := by
  unfold dispatchPre
  dsimp only
  split
  · rfl
  · rename_i hzero
    have hz : s.asyncListeners e.name = 0 := by omega
    simp [hz]

theorem dispatchPre_handle_new (s : SysState) (e : Event) :
    (dispatchPre s e).1.handles s.nextHandle =
      { wg := (s.asyncListeners e.name : Int), errors := [], doneClosed := false } := by
  unfold dispatchPre
  dsimp only
  split
  · simp [updFn_self]
  · rename_i hzero
    have hz : s.asyncListeners e.name = 0 := by omega
    simp [updFn_self, hz]

theorem dispatchPre_handles_other (s : SysState) (e : Event) {hid : Nat}
    (h : hid ≠ s.nextHandle) :
    (dispatchPre s e).1.handles hid = s.handles hid := by
  unfold dispatchPre
  dsimp only
  split
  · simp [updFn_ne _ _ _ h]
  · simp [updFn_ne _ _ _ h]

theorem Dispatch_snd (s : SysState) (e : Event) :
    (Dispatch s e).2 = s.nextHandle := by
  rfl

theorem Dispatch_decomposition (s : SysState) (e : Event) :
    (Dispatch s e).1 =
      { publish (dispatchPre s e).1 e.name [Arg.handle (dispatchPre s e).2, Arg.ev e] with
        tasks := (publish (dispatchPre s e).1 e.name
          [Arg.handle (dispatchPre s e).2, Arg.ev e]).tasks ++
            [Task.watcher (dispatchPre s e).2] } := by
  rfl

theorem Dispatch_subs (s : SysState) (e : Event) :
    (Dispatch s e).1.subs = s.subs := by
  unfold Dispatch publish
  dsimp only
  rw [publishList_subs, dispatchPre_subs]

theorem Dispatch_asyncListeners (s : SysState) (e : Event) :
    (Dispatch s e).1.asyncListeners = s.asyncListeners := by
  unfold Dispatch publish
  dsimp only
  rw [publishList_asyncListeners, dispatchPre_asyncListeners]

theorem Dispatch_nextHandle (s : SysState) (e : Event) :
    (Dispatch s e).1.nextHandle = s.nextHandle + 1 := by
  unfold Dispatch publish
  dsimp only
  rw [publishList_nextHandle, dispatchPre_nextHandle]

theorem Dispatch_gwg (s : SysState) (e : Event) :
    (Dispatch s e).1.gwg = s.gwg + (s.asyncListeners e.name : Int) := by
  unfold Dispatch publish
  dsimp only
  rw [publishList_gwg, dispatchPre_gwg]

theorem Dispatch_wg_new (s : SysState) (e : Event) :
    ((Dispatch s e).1.handles s.nextHandle).wg = (s.asyncListeners e.name : Int) := by
  unfold Dispatch publish
  dsimp only
  rw [publishList_wg, dispatchPre_handle_new]

theorem Dispatch_done_new (s : SysState) (e : Event) :
    ((Dispatch s e).1.handles s.nextHandle).doneClosed = false := by
  unfold Dispatch publish
  dsimp only
  rw [publishList_done, dispatchPre_handle_new]

theorem Dispatch_handles_other (s : SysState) (e : Event) {hid : Nat}
    (h : hid ≠ s.nextHandle) :
    (Dispatch s e).1.handles hid = s.handles hid := by
  unfold Dispatch publish
  dsimp only
  have hne : argHandle [Arg.handle (dispatchPre s e).2, Arg.ev e] ≠ some hid := by
    rw [dispatchPre_snd]
    simp only [argHandle, ne_eq, Option.some.injEq]
    exact fun hc => h hc.symm
  rw [publishList_handles_other _ _ _ hne, dispatchPre_handles_other s e h]

theorem Dispatch_tasks (s : SysState) (e : Event) :
    (Dispatch s e).1.tasks =
      s.tasks ++
        (((s.subs.filter (fun sub => sub.eventName == e.name)).filter
            (fun sub => sub.isAsync)).map
          (fun sub => Task.handlerCall sub
            [Arg.handle s.nextHandle, Arg.ev e])) ++
        [Task.watcher s.nextHandle] := by
  unfold Dispatch publish
  dsimp only
  rw [publishList_tasks]
  simp [dispatchPre_tasks, dispatchPre_subs, dispatchPre_snd]

theorem Dispatch_gerrors_append (s : SysState) (e : Event) :
    ∃ t : List EventError, (Dispatch s e).1.gerrors = s.gerrors ++ t := by
  unfold Dispatch publish
  dsimp only
  obtain ⟨t, ht⟩ := publishList_gerrors_append
    [Arg.handle (dispatchPre s e).2, Arg.ev e] (dispatchPre s e).1
    ((dispatchPre s e).1.subs.filter (fun sub => sub.eventName == e.name))
  exact ⟨t, by simpa [dispatchPre_gerrors] using ht⟩


theorem markDone_done_self (s : SysState) (hid : Nat) :
    ((markDone s hid).handles hid).doneClosed = true := by
  simp [markDone, updFn_self]

theorem markDone_handles_other (s : SysState) (hid : Nat) {hid2 : Nat}
    (h : hid2 ≠ hid) : (markDone s hid).handles hid2 = s.handles hid2 := by
  simp [markDone, updFn_ne _ _ _ h]

theorem register_handles (s : SysState) (l : Listener) :
    (registerSingleListener s l).handles = s.handles := by
  unfold registerSingleListener
  split <;> rfl

theorem register_gwg (s : SysState) (l : Listener) :
    (registerSingleListener s l).gwg = s.gwg := by
  unfold registerSingleListener
  split <;> rfl

theorem register_gerrors (s : SysState) (l : Listener) :
    (registerSingleListener s l).gerrors = s.gerrors := by
  unfold registerSingleListener
  split <;> rfl

theorem register_tasks (s : SysState) (l : Listener) :
    (registerSingleListener s l).tasks = s.tasks := by
  unfold registerSingleListener
  split <;> rfl

theorem register_nextHandle (s : SysState) (l : Listener) :
    (registerSingleListener s l).nextHandle = s.nextHandle := by
  unfold registerSingleListener
  split <;> rfl

theorem register_async_count_self (s : SysState) (l : Listener)
    (h : resolveAsync l = true) :
    (registerSingleListener s l).asyncListeners l.eventName =
      s.asyncListeners l.eventName + 1 := by
  simp [registerSingleListener, h, updFn_self]

theorem register_async_count_other (s : SysState) (l : Listener)
    (h : resolveAsync l = true) {n : String} (hn : n ≠ l.eventName) :
    (registerSingleListener s l).asyncListeners n = s.asyncListeners n := by
  simp [registerSingleListener, h, updFn_ne _ _ _ hn]

theorem register_sync_count (s : SysState) (l : Listener)
    (h : resolveAsync l = false) :
    (registerSingleListener s l).asyncListeners = s.asyncListeners := by
  simp [registerSingleListener, h]

theorem runTaskAt_asyncListeners (s : SysState) (i : Nat) :
    (runTaskAt s i).asyncListeners = s.asyncListeners := by
  unfold runTaskAt
  split
  · rfl
  · split
    · split
      · rw [runAsyncHandler_asyncListeners]
      · rfl
    · rfl

theorem runTaskAt_subs (s : SysState) (i : Nat) :
    (runTaskAt s i).subs = s.subs := by
  unfold runTaskAt
  split
  · rfl
  · split
    · split
      · rw [runAsyncHandler_subs]
      · rfl
    · rfl

theorem runTaskAt_nextHandle (s : SysState) (i : Nat) :
    (runTaskAt s i).nextHandle = s.nextHandle := by
  unfold runTaskAt
  split
  · rfl
  · split
    · split
      · rw [runAsyncHandler_nextHandle]
      · rfl
    · rfl

theorem ClearErrors_asyncListeners (s : SysState) :
    (ClearErrors s).asyncListeners = s.asyncListeners := rfl

theorem ClearErrors_handles (s : SysState) :
    (ClearErrors s).handles = s.handles := rfl

/-- Number of asynchronous subscriptions held by the bus for a topic. -/
def countAsync (subs : List Subscription) (name : String) : Nat :=
  ((subs.filter (fun sub => sub.eventName == name)).filter
    (fun sub => sub.isAsync)).length

theorem countAsync_append (subs1 subs2 : List Subscription) (name : String) :
    countAsync (subs1 ++ subs2) name =
      countAsync subs1 name + countAsync subs2 name := by
  simp [countAsync, List.filter_append]

theorem countAsync_singleton (sub : Subscription) (name : String) :
    countAsync [sub] name =
      if sub.eventName = name ∧ sub.isAsync = true then 1 else 0 := by
  by_cases he : sub.eventName = name
  · by_cases hb : sub.isAsync = true
    · simp [countAsync, he, hb]
    · simp only [Bool.not_eq_true] at hb
      simp [countAsync, he, hb]
  · simp [countAsync, he]

/-- Well-formedness of a pending computation: every handle it can touch was
already allocated. -/
def taskOK (nh : Nat) : Task → Prop
  | Task.handlerCall _ args => ∀ h, argHandle args = some h → h < nh
  | Task.watcher h => h < nh

theorem taskOK_mono {nh nh2 : Nat} (h : nh ≤ nh2) {t : Task}
    (ht : taskOK nh t) : taskOK nh2 t := by
  cases t with
  | handlerCall sub args => exact fun h0 hh => Nat.lt_of_lt_of_le (ht h0 hh) h
  | watcher h0 => exact Nat.lt_of_lt_of_le ht h

/-- State well-formedness maintained by every transition: the async-count
map agrees with the bus subscription list, unallocated handles are in their
initial state, and pending computations only touch allocated handles. -/
structure Inv (s : SysState) : Prop where
  count : ∀ name, s.asyncListeners name = countAsync s.subs name
  fresh : ∀ hid, s.nextHandle ≤ hid →
    s.handles hid = { wg := 0, errors := [], doneClosed := false }
  tasksOK : ∀ t ∈ s.tasks, taskOK s.nextHandle t

theorem inv_New : Inv New := by
  refine ⟨fun name => by simp [New, countAsync], fun hid _ => rfl, by simp [New]⟩

theorem inv_register {s : SysState} (hs : Inv s) (l : Listener) :
    Inv (registerSingleListener s l) := by
  refine ⟨?_, ?_, ?_⟩
  · intro name
    by_cases ha : resolveAsync l = true
    · unfold registerSingleListener
      rw [ha]
      simp only [if_true]
      rw [countAsync_append, countAsync_singleton]
      by_cases hn : name = l.eventName
      · rw [hn, updFn_self, hs.count l.eventName]
        simp
      · rw [updFn_ne _ _ _ hn, hs.count name]
        have hnot : ¬(({ eventName := l.eventName, listener := l, isAsync := true } :
            Subscription).eventName = name) := fun hc => hn hc.symm
        simp [hnot]
    · rw [Bool.not_eq_true] at ha
      unfold registerSingleListener
      rw [ha]
      simp only [Bool.false_eq_true, if_false]
      rw [countAsync_append, countAsync_singleton, hs.count name]
      simp
  · intro hid hh
    rw [register_handles]
    exact hs.fresh hid (by rwa [register_nextHandle] at hh)
  · intro t ht
    rw [register_tasks] at ht
    rw [register_nextHandle]
    exact hs.tasksOK t ht

theorem inv_dispatch {s : SysState} (hs : Inv s) (e : Event) :
    Inv (Dispatch s e).1 := by
  refine ⟨?_, ?_, ?_⟩
  · intro name
    rw [Dispatch_asyncListeners, Dispatch_subs]
    exact hs.count name
  · intro hid hh
    rw [Dispatch_nextHandle] at hh
    have hne : hid ≠ s.nextHandle := by omega
    rw [Dispatch_handles_other s e hne]
    exact hs.fresh hid (by omega)
  · intro t ht
    rw [Dispatch_tasks] at ht
    rw [Dispatch_nextHandle]
    rcases List.mem_append.mp ht with hleft | hwatch
    · rcases List.mem_append.mp hleft with hold | hnew
      · exact taskOK_mono (Nat.le_succ _) (hs.tasksOK t hold)
      · obtain ⟨sub, _, rfl⟩ := List.mem_map.mp hnew
        intro h0 hh0
        simp only [argHandle, Option.some.injEq] at hh0
        omega
    · rw [List.mem_singleton.mp hwatch]
      exact Nat.lt_succ_self _

theorem inv_runTask {s : SysState} (hs : Inv s) (i : Nat) :
    Inv (runTaskAt s i) := by
  unfold runTaskAt
  split
  · exact hs
  · rename_i t hget
    split
    · rename_i henabled
      have htmem : t ∈ s.tasks := by
        obtain ⟨hlt, hel⟩ := List.getElem?_eq_some.mp hget
        exact hel ▸ List.getElem_mem hlt
      have htok := hs.tasksOK t htmem
      have herase : ∀ t2 ∈ s.tasks.eraseIdx i, taskOK s.nextHandle t2 := by
        intro t2 ht2
        exact hs.tasksOK t2 ((List.eraseIdx_sublist s.tasks i).mem ht2)
      split
      · rename_i sub args
        refine ⟨?_, ?_, ?_⟩
        · intro name
          rw [runAsyncHandler_asyncListeners, runAsyncHandler_subs]
          exact hs.count name
        · intro hid hh
          rw [runAsyncHandler_nextHandle] at hh
          replace hh : s.nextHandle ≤ hid := hh
          have hne : argHandle args ≠ some hid := by
            intro hc
            exact absurd (htok hid hc) (by omega)
          rw [runAsyncHandler_handles_other _ _ _ hne]
          exact hs.fresh hid hh
        · intro t2 ht2
          rw [runAsyncHandler_tasks] at ht2
          rw [runAsyncHandler_nextHandle]
          exact herase t2 ht2
      · rename_i h0
        refine ⟨?_, ?_, ?_⟩
        · intro name
          simpa [markDone] using hs.count name
        · intro hid hh
          replace hh : s.nextHandle ≤ hid := hh
          have hne : hid ≠ h0 := by
            intro hc
            have hlt : h0 < s.nextHandle := htok
            omega
          rw [markDone_handles_other _ _ hne]
          exact hs.fresh hid hh
        · intro t2 ht2
          simp only [markDone] at ht2 ⊢
          exact herase t2 ht2
    · exact hs

theorem inv_clear {s : SysState} (hs : Inv s) : Inv (ClearErrors s) := by
  exact ⟨hs.count, hs.fresh, hs.tasksOK⟩

theorem inv_step {s : SysState} (hs : Inv s) (a : Act) : Inv (stepA s a) := by
  cases a with
  | register l => exact inv_register hs l
  | dispatchEv e => exact inv_dispatch hs e
  | runTask i => exact inv_runTask hs i
  | clear => exact inv_clear hs

theorem inv_runActs {s : SysState} (hs : Inv s) (acts : List Act) :
    Inv (runActs s acts) := by
  induction acts generalizing s with
  | nil => exact hs
  | cons a rest ih => exact ih (inv_step hs a)

theorem reachable_inv {s : SysState} (hs : Reachable s) : Inv s := by
  obtain ⟨acts, rfl⟩ := hs
  exact inv_runActs inv_New acts

theorem reachable_step {s : SysState} (hs : Reachable s) (a : Act) :
    Reachable (stepA s a) := by
  obtain ⟨acts, rfl⟩ := hs
  exact ⟨acts ++ [a], by simp [runActs, List.foldl_append]⟩


theorem copySlice_eq (l : List EventError) : copySlice l = l :=
  List.ofFn_get l

theorem runTaskAt_done_mono (s : SysState) (i : Nat) (hid : Nat)
    (h : (s.handles hid).doneClosed = true) :
    ((runTaskAt s i).handles hid).doneClosed = true := by
  unfold runTaskAt
  split
  · exact h
  · rename_i t hget
    split
    · rename_i henabled
      split
      · rw [runAsyncHandler_done]
        exact h
      · rename_i h0
        by_cases hh : hid = h0
        · subst hh
          exact markDone_done_self _ hid
        · rw [markDone_handles_other _ _ hh]
          exact h
    · exact h

theorem stepA_done_mono {s : SysState} (hs : Inv s) (a : Act) (hid : Nat)
    (h : (s.handles hid).doneClosed = true) :
    ((stepA s a).handles hid).doneClosed = true := by
  cases a with
  | register l =>
    show ((registerSingleListener s l).handles hid).doneClosed = true
    rw [register_handles]
    exact h
  | dispatchEv e =>
    show (((Dispatch s e).1).handles hid).doneClosed = true
    by_cases hne : hid = s.nextHandle
    · subst hne
      have hfresh := hs.fresh s.nextHandle (Nat.le_refl _)
      rw [hfresh] at h
      simp at h
    · rw [Dispatch_handles_other s e hne]
      exact h
  | runTask i => exact runTaskAt_done_mono s i hid h
  | clear => exact h

theorem runTaskAt_done_flip (s : SysState) (i : Nat) (hid : Nat)
    (h : ((runTaskAt s i).handles hid).doneClosed = true) :
    (s.handles hid).doneClosed = true ∨ (s.handles hid).wg = 0 := by
  revert h
  unfold runTaskAt
  split
  · exact fun h => Or.inl h
  · rename_i t hget
    split
    · rename_i henabled
      split
      · intro h
        rw [runAsyncHandler_done] at h
        exact Or.inl h
      · rename_i h0
        intro h
        by_cases hh : hid = h0
        · subst hh
          right
          simpa [taskEnabled] using henabled
        · rw [markDone_handles_other _ _ hh] at h
          exact Or.inl h
    · exact fun h => Or.inl h

theorem stepA_done_flip (s : SysState) (a : Act) (hid : Nat)
    (h : ((stepA s a).handles hid).doneClosed = true) :
    (s.handles hid).doneClosed = true ∨ (s.handles hid).wg = 0 := by
  cases a with
  | register l =>
    left
    rw [show (stepA s (Act.register l)) = registerSingleListener s l from rfl,
      register_handles] at h
    exact h
  | dispatchEv e =>
    by_cases hne : hid = s.nextHandle
    · subst hne
      rw [show (stepA s (Act.dispatchEv e)) = (Dispatch s e).1 from rfl] at h
      rw [Dispatch_done_new] at h
      simp at h
    · left
      rw [show (stepA s (Act.dispatchEv e)) = (Dispatch s e).1 from rfl,
        Dispatch_handles_other s e hne] at h
      exact h
  | runTask i => exact runTaskAt_done_flip s i hid h
  | clear => exact Or.inl h

theorem done_persists {s : SysState} (hreach : Reachable s) (hid : Nat)
    (acts : List Act) (h : (s.handles hid).doneClosed = true) :
    ((runActs s acts).handles hid).doneClosed = true := by
  induction acts generalizing s with
  | nil => exact h
  | cons a rest ih =>
    exact ih (reachable_step hreach a)
      (stepA_done_mono (reachable_inv hreach) a hid h)


theorem runTaskAt_watcher (s : SysState) (i : Nat) (w : Nat)
    (hget : s.tasks[i]? = some (Task.watcher w)) (hwg : (s.handles w).wg = 0) :
    runTaskAt s i = markDone { s with tasks := s.tasks.eraseIdx i } w := by
  unfold runTaskAt
  rw [hget]
  simp [taskEnabled, hwg]

/-- A concrete event used to instantiate theorems with hypotheses. -/
def testEvent : Event :=
  { name := "test.event", payload := [("data", "x")] }

/-- A concrete always-failing listener (compare testErrorListener in
part_000): OnEvent returns the failure "test error". -/
def errListener : Listener :=
  { eventName := "test.event"
    listenerType := "*goevent.testErrorListener"
    onEvent := fun _ => some "test error"
    options := none }

/-- C1, amended.  For a dispatch of an event whose async-listener count is
zero: the handle countdown is zero when Dispatch returns, so Wait returns
without blocking; the only pending computation Dispatch adds is its watcher
goroutine, that watcher is already enabled (it waits on nothing), and
running it fires the completion signal.  The signal is NOT guaranteed to
have fired at the instant Dispatch returns, because the watcher is a
separate goroutine; it fires at its first scheduling point. -/
theorem C1_zero_async_dispatch (s : SysState) (e : Event)
    (hreach : Reachable s) (hzero : s.asyncListeners e.name = 0) :
    handleWaitEnabled (Dispatch s e).1 (Dispatch s e).2 ∧
    (Dispatch s e).1.tasks = s.tasks ++ [Task.watcher (Dispatch s e).2] ∧
    taskEnabled (Dispatch s e).1 (Task.watcher (Dispatch s e).2) = true ∧
    doneFired (runTaskAt (Dispatch s e).1 s.tasks.length) (Dispatch s e).2 := by
  have hinv := reachable_inv hreach
  have hcnt : countAsync s.subs e.name = 0 := by
    rw [← hinv.count e.name]
    exact hzero
  have hfilter :
      ((s.subs.filter (fun sub => sub.eventName == e.name)).filter
        (fun sub => sub.isAsync)) = [] :=
    List.length_eq_zero.mp hcnt
  have hwg : ((Dispatch s e).1.handles s.nextHandle).wg = 0 := by
    rw [Dispatch_wg_new, hzero]
    rfl
  have htasks : (Dispatch s e).1.tasks = s.tasks ++ [Task.watcher s.nextHandle] := by
    rw [Dispatch_tasks, hfilter]
    simp
  have hidx : (Dispatch s e).1.tasks[s.tasks.length]? =
      some (Task.watcher s.nextHandle) := by
    rw [htasks]
    exact List.getElem?_concat_length _ _
  refine ⟨hwg, htasks, ?_, ?_⟩
  · show taskEnabled (Dispatch s e).1 (Task.watcher s.nextHandle) = true
    simp [taskEnabled, hwg]
  · show doneFired (runTaskAt (Dispatch s e).1 s.tasks.length) s.nextHandle
    rw [runTaskAt_watcher _ _ _ hidx hwg]
    exact markDone_done_self _ _

/-- C1 witness: the amended statement instantiated at a fresh dispatcher
and a concrete event with no listeners at all. -/
theorem C1_zero_async_dispatch_witness :
    handleWaitEnabled (Dispatch New testEvent).1 (Dispatch New testEvent).2 ∧
    (Dispatch New testEvent).1.tasks =
      New.tasks ++ [Task.watcher (Dispatch New testEvent).2] ∧
    taskEnabled (Dispatch New testEvent).1
      (Task.watcher (Dispatch New testEvent).2) = true ∧
    doneFired (runTaskAt (Dispatch New testEvent).1 New.tasks.length)
      (Dispatch New testEvent).2 :=
  C1_zero_async_dispatch New testEvent ⟨[], rfl⟩ rfl

/-- C1 counterexample: on a fresh dispatcher with zero async listeners,
Dispatch has returned but the completion signal has not yet fired (the
watcher goroutine is still pending), refuting the part of the claim that
the signal has already fired by the time Dispatch returns. -/
theorem C1_counterexample :
    New.asyncListeners testEvent.name = 0 ∧
    ¬ doneFired (Dispatch New testEvent).1 (Dispatch New testEvent).2 := by
  constructor
  · rfl
  · intro h
    have hb : ((Dispatch New testEvent).1.handles
        (Dispatch New testEvent).2).doneClosed = true := h
    exact absurd hb (by decide)

/-- C2.  The completion signal of a dispatch handle is one-shot: a
transition can only fire it when the handle countdown is zero at that
moment (never before the countdown reaches zero), a fired signal stays
fired under every later transition (so it fires at most once and every
present or future waiter observes that single firing), and persistence
holds over any whole sequence of transitions. -/
theorem C2_done_single_fire (s : SysState) (a : Act) (hid : Nat)
    (hreach : Reachable s) :
    (doneFired s hid → doneFired (stepA s a) hid) ∧
    (doneFired (stepA s a) hid → doneFired s hid ∨ (s.handles hid).wg = 0) ∧
    (∀ acts : List Act, doneFired s hid → doneFired (runActs s acts) hid) := by
  refine ⟨?_, ?_, ?_⟩
  · exact fun h => stepA_done_mono (reachable_inv hreach) a hid h
  · exact fun h => stepA_done_flip s a hid h
  · exact fun acts h => done_persists hreach hid acts h

/-- C2 witness: the statement instantiated at a fresh dispatcher after one
dispatch, for its handle, with its watcher step as the transition. -/
theorem C2_done_single_fire_witness :
    (doneFired (stepA New (Act.dispatchEv testEvent)) 0 →
      doneFired (stepA (stepA New (Act.dispatchEv testEvent)) (Act.runTask 0)) 0) ∧
    (doneFired (stepA (stepA New (Act.dispatchEv testEvent)) (Act.runTask 0)) 0 →
      doneFired (stepA New (Act.dispatchEv testEvent)) 0 ∨
        ((stepA New (Act.dispatchEv testEvent)).handles 0).wg = 0) ∧
    (∀ acts : List Act,
      doneFired (stepA New (Act.dispatchEv testEvent)) 0 →
      doneFired (runActs (stepA New (Act.dispatchEv testEvent)) acts) 0) :=
  C2_done_single_fire (stepA New (Act.dispatchEv testEvent)) (Act.runTask 0) 0
    ⟨[Act.dispatchEv testEvent], rfl⟩


/-- C3.  When a listener OnEvent fails during a handler invocation, the
invocation returns normally: an EventError carrying the event name, the
listener type identifier and the cause is appended to both the handle error
log and the global error log, and every other part of the state (bus,
counters, pending work, other handles) is untouched, so no failure is
raised back through Dispatch, RegisterListener or Wait. -/
theorem C3_failure_recorded_not_raised (l : Listener) (s : SysState) (hid : Nat)
    (e : Event) (rest : List Arg) (msg : String) (h : l.onEvent e = some msg) :
    ((runHandler l s (Arg.handle hid :: Arg.ev e :: rest)).handles hid).errors =
      (s.handles hid).errors ++
        [{ eventName := l.eventName, listenerType := l.listenerType, err := msg }] ∧
    (runHandler l s (Arg.handle hid :: Arg.ev e :: rest)).gerrors =
      s.gerrors ++
        [{ eventName := l.eventName, listenerType := l.listenerType, err := msg }] ∧
    (runHandler l s (Arg.handle hid :: Arg.ev e :: rest)).subs = s.subs ∧
    (runHandler l s (Arg.handle hid :: Arg.ev e :: rest)).gwg = s.gwg ∧
    (runHandler l s (Arg.handle hid :: Arg.ev e :: rest)).asyncListeners =
      s.asyncListeners ∧
    (runHandler l s (Arg.handle hid :: Arg.ev e :: rest)).nextHandle =
      s.nextHandle ∧
    (runHandler l s (Arg.handle hid :: Arg.ev e :: rest)).tasks = s.tasks ∧
    (∀ hid2 : Nat,
      ((runHandler l s (Arg.handle hid :: Arg.ev e :: rest)).handles hid2).wg =
        (s.handles hid2).wg ∧
      ((runHandler l s (Arg.handle hid :: Arg.ev e :: rest)).handles hid2).doneClosed =
        (s.handles hid2).doneClosed) := by
  rw [runHandler_eq_some s hid rest h]
  refine ⟨?_, ?_, rfl, rfl, rfl, rfl, rfl, ?_⟩
  · simp [recordGlobalError, recordHandleError, updFn_self]
  · simp [recordGlobalError, recordHandleError]
  · intro hid2
    by_cases hh : hid2 = hid
    · subst hh
      simp [recordGlobalError, recordHandleError, updFn_self]
    · simp [recordGlobalError, recordHandleError, updFn_ne _ _ _ hh]

/-- C3 witness: the failing test listener at a fresh dispatcher; its
failure "test error" lands in both logs and changes nothing else. -/
theorem C3_failure_recorded_not_raised_witness :
    ((runHandler errListener New (Arg.handle 0 :: Arg.ev testEvent :: [])).handles
        0).errors =
      (New.handles 0).errors ++
        [{ eventName := errListener.eventName,
           listenerType := errListener.listenerType, err := "test error" }] ∧
    (runHandler errListener New (Arg.handle 0 :: Arg.ev testEvent :: [])).gerrors =
      New.gerrors ++
        [{ eventName := errListener.eventName,
           listenerType := errListener.listenerType, err := "test error" }] ∧
    (runHandler errListener New (Arg.handle 0 :: Arg.ev testEvent :: [])).subs =
      New.subs ∧
    (runHandler errListener New (Arg.handle 0 :: Arg.ev testEvent :: [])).gwg =
      New.gwg ∧
    (runHandler errListener New
        (Arg.handle 0 :: Arg.ev testEvent :: [])).asyncListeners =
      New.asyncListeners ∧
    (runHandler errListener New
        (Arg.handle 0 :: Arg.ev testEvent :: [])).nextHandle = New.nextHandle ∧
    (runHandler errListener New (Arg.handle 0 :: Arg.ev testEvent :: [])).tasks =
      New.tasks ∧
    (∀ hid2 : Nat,
      ((runHandler errListener New
          (Arg.handle 0 :: Arg.ev testEvent :: [])).handles hid2).wg =
        (New.handles hid2).wg ∧
      ((runHandler errListener New
          (Arg.handle 0 :: Arg.ev testEvent :: [])).handles hid2).doneClosed =
        (New.handles hid2).doneClosed) :=
  C3_failure_recorded_not_raised errListener New 0 testEvent [] "test error" rfl

/-- C4.  A Dispatch call increments the global and the fresh handle
countdown counters by exactly the async-listener count read for the event
name, this happens in the phase before the publish call (Dispatch is
definitionally the publish applied to the incremented state), the counters
still hold those values when Dispatch returns, and a zero count leaves both
counters unchanged (the addition is by zero). -/
theorem C4_increment_before_publish (s : SysState) (e : Event) :
    (dispatchPre s e).1.gwg = s.gwg + (s.asyncListeners e.name : Int) ∧
    ((dispatchPre s e).1.handles (dispatchPre s e).2).wg =
      (s.asyncListeners e.name : Int) ∧
    (Dispatch s e).1 =
      { publish (dispatchPre s e).1 e.name
          [Arg.handle (dispatchPre s e).2, Arg.ev e] with
        tasks := (publish (dispatchPre s e).1 e.name
          [Arg.handle (dispatchPre s e).2, Arg.ev e]).tasks ++
            [Task.watcher (dispatchPre s e).2] } ∧
    (Dispatch s e).1.gwg = s.gwg + (s.asyncListeners e.name : Int) ∧
    ((Dispatch s e).1.handles (Dispatch s e).2).wg =
      (s.asyncListeners e.name : Int) := by
  refine ⟨dispatchPre_gwg s e, ?_, Dispatch_decomposition s e, Dispatch_gwg s e, ?_⟩
  · show ((dispatchPre s e).1.handles s.nextHandle).wg = (s.asyncListeners e.name : Int)
    rw [dispatchPre_handle_new]
  · show ((Dispatch s e).1.handles s.nextHandle).wg = (s.asyncListeners e.name : Int)
    exact Dispatch_wg_new s e

/-- C5.  An async adapter invocation with the published arguments
decrements the global and the handle countdown by exactly one, and does so
on the state produced by the handler body (so after any error recording),
whatever OnEvent returned; a sync adapter invocation never changes either
countdown, for any argument list. -/
theorem C5_async_decrement_exactly_once (l : Listener) (s : SysState) (hid : Nat)
    (e : Event) :
    (runAsyncHandler l s [Arg.handle hid, Arg.ev e]).gwg = s.gwg - 1 ∧
    ((runAsyncHandler l s [Arg.handle hid, Arg.ev e]).handles hid).wg =
      (s.handles hid).wg - 1 ∧
    runAsyncHandler l s [Arg.handle hid, Arg.ev e] =
      decHandleWg
        ({ runHandler l s [Arg.handle hid, Arg.ev e] with
           gwg := (runHandler l s [Arg.handle hid, Arg.ev e]).gwg - 1 }) hid ∧
    (∀ args2 : List Arg, (runHandler l s args2).gwg = s.gwg ∧
      ∀ h2 : Nat, ((runHandler l s args2).handles h2).wg = (s.handles h2).wg) :=
  ⟨runAsyncHandler_gwg l s _, runAsyncHandler_wg_head l s hid _, rfl,
    fun args2 => ⟨runHandler_gwg l s args2, fun h2 => runHandler_wg l s args2 h2⟩⟩


theorem runTaskAt_gerrors_append (s : SysState) (i : Nat) :
    ∃ t : List EventError, (runTaskAt s i).gerrors = s.gerrors ++ t := by
  unfold runTaskAt
  split
  · exact ⟨[], by simp⟩
  · rename_i t hget
    split
    · rename_i hen
      split
      · rename_i sub args
        obtain ⟨t2, ht2⟩ := runHandler_gerrors_append sub.listener
          { s with tasks := s.tasks.eraseIdx i } args
        refine ⟨t2, ?_⟩
        rw [runAsyncHandler_gerrors]
        exact ht2
      · exact ⟨[], by simp [markDone]⟩
    · exact ⟨[], by simp⟩

/-- C6.  Error scoping: the handle GetErrors is exactly the content of that
handle private log, and that log is written only by invocations belonging
to its own dispatch — a Dispatch call never touches the log of any
previously existing handle, an async invocation carrying a different
handle never touches it, and registration and ClearErrors never touch any
handle log.  Whenever an invocation appends a batch of errors to a handle
log it appends the same batch, in the same order, to the global log, and
the global log only ever grows by suffixes (arrival order preserved)
except at an explicit ClearErrors. -/
theorem C6_error_scoping (s : SysState) :
    (∀ hid : Nat, handleGetErrors s hid = (s.handles hid).errors) ∧
    (GetErrors s = s.gerrors) ∧
    (∀ (e : Event) (hid : Nat), hid ≠ s.nextHandle →
      ((Dispatch s e).1.handles hid).errors = (s.handles hid).errors) ∧
    (∀ (l : Listener) (args : List Arg) (hid : Nat), argHandle args ≠ some hid →
      ((runAsyncHandler l s args).handles hid).errors = (s.handles hid).errors) ∧
    (∀ l : Listener, (registerSingleListener s l).handles = s.handles) ∧
    ((ClearErrors s).handles = s.handles) ∧
    (∀ (l : Listener) (args : List Arg) (hid : Nat), argHandle args = some hid →
      ∃ t : List EventError,
        ((runHandler l s args).handles hid).errors = (s.handles hid).errors ++ t ∧
        (runHandler l s args).gerrors = s.gerrors ++ t) ∧
    (∀ a : Act, a ≠ Act.clear →
      ∃ t : List EventError, (stepA s a).gerrors = s.gerrors ++ t) := by
  refine ⟨fun hid => copySlice_eq _, copySlice_eq _, ?_, ?_, ?_, rfl, ?_, ?_⟩
  · intro e hid hne
    rw [Dispatch_handles_other s e hne]
  · intro l args hid hne
    rw [runAsyncHandler_handles_other l s args hne]
  · intro l
    exact register_handles s l
  · intro l args hid hsome
    exact runHandler_both_append l s args hsome
  · intro a ha
    cases a with
    | register l => exact ⟨[], by rw [show stepA s (Act.register l) =
        registerSingleListener s l from rfl, register_gerrors]; simp⟩
    | dispatchEv e => exact Dispatch_gerrors_append s e
    | runTask i => exact runTaskAt_gerrors_append s i
    | clear => exact absurd rfl ha

/-- C6 witness: on a fresh dispatcher, a dispatch leaves the log of an
unrelated handle untouched, an async invocation carrying handle 0 leaves
the log of handle 1 untouched, a failing invocation appends the same batch
to both logs, and a dispatch step only appends to the global log. -/
theorem C6_error_scoping_witness :
    handleGetErrors New 1 = (New.handles 1).errors ∧
    ((Dispatch New testEvent).1.handles 1).errors = (New.handles 1).errors ∧
    ((runAsyncHandler errListener New
        [Arg.handle 0, Arg.ev testEvent]).handles 1).errors =
      (New.handles 1).errors ∧
    (∃ t : List EventError,
      ((runHandler errListener New
          [Arg.handle 0, Arg.ev testEvent]).handles 0).errors =
        (New.handles 0).errors ++ t ∧
      (runHandler errListener New [Arg.handle 0, Arg.ev testEvent]).gerrors =
        New.gerrors ++ t) ∧
    (∃ t : List EventError,
      (stepA New (Act.dispatchEv testEvent)).gerrors = New.gerrors ++ t) := by
  have h := C6_error_scoping New
  exact ⟨h.1 1, h.2.2.1 testEvent 1 (by decide),
    h.2.2.2.1 errListener [Arg.handle 0, Arg.ev testEvent] 1 (by decide),
    h.2.2.2.2.2.2.1 errListener [Arg.handle 0, Arg.ev testEvent] 0 rfl,
    h.2.2.2.2.2.2.2 (Act.dispatchEv testEvent) (fun hc => Act.noConfusion hc)⟩

/-- C7.  GetErrors, global and scoped, is the order-preserving copy of the
respective log, element for element; recording a further error yields a
strictly longer list while the earlier snapshot value is untouched, and
clearing yields the empty list while the earlier snapshot value is
untouched (snapshots are values, never views of the live list). -/
theorem C7_snapshot_copy (s : SysState) (e : EventError) (hid : Nat) :
    GetErrors s = s.gerrors ∧
    handleGetErrors s hid = (s.handles hid).errors ∧
    GetErrors (recordGlobalError s e) = GetErrors s ++ [e] ∧
    GetErrors (ClearErrors s) = [] ∧
    handleGetErrors (recordHandleError s hid e) hid = handleGetErrors s hid ++ [e] ∧
    handleGetErrors (ClearErrors s) hid = handleGetErrors s hid := by
  refine ⟨copySlice_eq _, copySlice_eq _, ?_, copySlice_eq [], ?_, rfl⟩
  · show copySlice (s.gerrors ++ [e]) = copySlice s.gerrors ++ [e]
    rw [copySlice_eq, copySlice_eq]
  · show copySlice ((recordHandleError s hid e).handles hid).errors =
      copySlice (s.handles hid).errors ++ [e]
    rw [copySlice_eq, copySlice_eq]
    simp [recordHandleError, updFn_self]

/-- C8.  ClearErrors empties the global error log — an immediate GetErrors
returns the empty list — and leaves every dispatch handle (so every scoped
error log), the async-count table, the subscriptions, both countdown
counters, the handle allocator and the pending computations unchanged. -/
theorem C8_clear_frame (s : SysState) :
    (ClearErrors s).gerrors = [] ∧
    GetErrors (ClearErrors s) = [] ∧
    (ClearErrors s).handles = s.handles ∧
    (∀ hid : Nat, handleGetErrors (ClearErrors s) hid = handleGetErrors s hid) ∧
    (ClearErrors s).asyncListeners = s.asyncListeners ∧
    (ClearErrors s).subs = s.subs ∧
    (ClearErrors s).gwg = s.gwg ∧
    (ClearErrors s).nextHandle = s.nextHandle ∧
    (ClearErrors s).tasks = s.tasks :=
  ⟨rfl, copySlice_eq [], rfl, fun _ => rfl, rfl, rfl, rfl, rfl, rfl⟩

/-- C9.  The async-count table is written only by registration and only
upward: registering an async listener adds one to the entry for its event
name and leaves every other entry unchanged, registering a sync listener
leaves the whole table unchanged, Dispatch, scheduler steps and
ClearErrors leave it unchanged (GetErrors and the Wait operations read
without writing), and every transition leaves every entry no smaller. -/
theorem C9_async_count_increment_only (s : SysState) (l : Listener) (e : Event)
    (i : Nat) (n : String) (a : Act) :
    (resolveAsync l = true →
      (registerSingleListener s l).asyncListeners l.eventName =
        s.asyncListeners l.eventName + 1 ∧
      ∀ n2 : String, n2 ≠ l.eventName →
        (registerSingleListener s l).asyncListeners n2 = s.asyncListeners n2) ∧
    (resolveAsync l = false →
      (registerSingleListener s l).asyncListeners = s.asyncListeners) ∧
    (Dispatch s e).1.asyncListeners = s.asyncListeners ∧
    (runTaskAt s i).asyncListeners = s.asyncListeners ∧
    (ClearErrors s).asyncListeners = s.asyncListeners ∧
    s.asyncListeners n ≤ (stepA s a).asyncListeners n := by
  refine ⟨fun h => ⟨register_async_count_self s l h,
      fun n2 hn2 => register_async_count_other s l h hn2⟩,
    fun h => register_sync_count s l h,
    Dispatch_asyncListeners s e, runTaskAt_asyncListeners s i, rfl, ?_⟩
  cases a with
  | register l2 =>
    show s.asyncListeners n ≤ (registerSingleListener s l2).asyncListeners n
    by_cases h2 : resolveAsync l2 = true
    · by_cases hn : n = l2.eventName
      · rw [hn, register_async_count_self s l2 h2]
        omega
      · rw [register_async_count_other s l2 h2 hn]
    · rw [register_sync_count s l2 (by simpa using h2)]
  | dispatchEv e2 =>
    show s.asyncListeners n ≤ (Dispatch s e2).1.asyncListeners n
    rw [Dispatch_asyncListeners]
  | runTask i2 =>
    show s.asyncListeners n ≤ (runTaskAt s i2).asyncListeners n
    rw [runTaskAt_asyncListeners]
  | clear => exact Nat.le_refl _

/-- A concrete async listener (compare testAsyncListener in part_000):
implements the options capability with Async true and always succeeds. -/
def asyncListener : Listener :=
  { eventName := "test.event"
    listenerType := "*goevent.testAsyncListener"
    onEvent := fun _ => none
    options := some true }

/-- C9 witness: registering the async test listener on a fresh dispatcher
bumps its entry by one, registering the sync failing listener changes
nothing, and a ClearErrors step never shrinks an entry. -/
theorem C9_async_count_increment_only_witness :
    (registerSingleListener New asyncListener).asyncListeners
        asyncListener.eventName =
      New.asyncListeners asyncListener.eventName + 1 ∧
    (registerSingleListener New errListener).asyncListeners =
      New.asyncListeners ∧
    New.asyncListeners "x" ≤ (stepA New Act.clear).asyncListeners "x" := by
  have h1 := C9_async_count_increment_only New asyncListener testEvent 0 "x" Act.clear
  have h2 := C9_async_count_increment_only New errListener testEvent 0 "x" Act.clear
  exact ⟨(h1.1 rfl).1, h2.2.1 rfl, h1.2.2.2.2.2⟩

/-- C10.  A handler invocation whose argument list is not a dispatch handle
followed by an event returns before calling OnEvent: the state is unchanged
by the handler body, and in particular neither error log changes; the async
wrapper around it nevertheless decrements the global countdown by one, and
also the handle countdown whenever the first argument is a handle, while
with no leading handle argument every handle is left untouched. -/
theorem C10_bad_args_skip_listener (l : Listener) (s : SysState) (args : List Arg)
    (hbad : goodArgs args = false) :
    runHandler l s args = s ∧
    (runAsyncHandler l s args).gwg = s.gwg - 1 ∧
    (runAsyncHandler l s args).gerrors = s.gerrors ∧
    (∀ hid : Nat,
      ((runAsyncHandler l s args).handles hid).errors = (s.handles hid).errors) ∧
    (∀ (hid : Nat) (rest : List Arg), args = Arg.handle hid :: rest →
      ((runAsyncHandler l s args).handles hid).wg = (s.handles hid).wg - 1) ∧
    (argHandle args = none →
      ∀ hid : Nat, (runAsyncHandler l s args).handles hid = s.handles hid) := by
  refine ⟨runHandler_badArgs l s hbad, runAsyncHandler_gwg l s args, ?_, ?_, ?_, ?_⟩
  · rw [runAsyncHandler_gerrors, runHandler_badArgs l s hbad]
  · intro hid
    rw [runAsyncHandler_errors, runHandler_badArgs l s hbad]
  · intro hid rest heq
    subst heq
    exact runAsyncHandler_wg_head l s hid rest
  · intro hnone hid
    refine runAsyncHandler_handles_other l s args ?_
    rw [hnone]
    simp

/-- C10 witness: a one-element argument list holding only a handle — the
listener body is skipped, the state is unchanged by it, yet the async
wrapper decrements the global countdown and the countdown of handle 3. -/
theorem C10_bad_args_skip_listener_witness :
    runHandler errListener New [Arg.handle 3] = New ∧
    (runAsyncHandler errListener New [Arg.handle 3]).gwg = New.gwg - 1 ∧
    ((runAsyncHandler errListener New [Arg.handle 3]).handles 3).wg =
      (New.handles 3).wg - 1 := by
  have h := C10_bad_args_skip_listener errListener New [Arg.handle 3] rfl
  exact ⟨h.1, h.2.1, h.2.2.2.2.1 3 [] rfl⟩

end GoEvent
